import Mathlib

/-!
Shallow embedding of the dynamic-DNS agent `azure-dns-updater-go`.

The repository contains three successive rewrites of the same program in
`main.go`:
  * variant 1 (lines 1-115): DNS-based resolver (`resolveOwnIp` returns a
    list of addresses; the loop reads `ip[0]`), poll loop in `main` with
    `time.Sleep(interval)` at the end of the body and `continue` on a
    resolution error;
  * variant 2 (lines 116-230): HTTP-based resolver (single string), the
    same poll loop structure as variant 1;
  * variant 3 (lines 231-481): a refactored `DNSUpdater` with
    `checkAndUpdate` driven by a `time.Ticker` in `Run`.

Network effects (the resolver's answer, the Azure update call's
success/failure) are parameters of the embedded cycle functions; the
embedding records, per reconciliation cycle, the new value of the cached
IP (`prevIp` / `prevIP`, absent encoded as the empty string exactly as in
the Go source), the sequence of Record Updater invocations, the error log
events emitted, and whether the cycle is followed by waiting the poll
interval.
-/

namespace AzureDnsUpdater

/-- A single Record Updater invocation: the record-set name passed to the
Azure client, the IP value carried in the `ARecords` payload, and whether
the remote call succeeded. -/
structure Call where
  target : String
  ip : String
  ok : Bool
deriving DecidableEq, Repr

/-- The per-cycle error of variant 3: `checkAndUpdate` returns either a
wrapped resolution error or a wrapped update error naming the record set
(`fmt.Errorf("failed to update DNS record %s: %w", recordSet, err)`). -/
inductive CycleErr where
  | resolveErr : CycleErr
  | updateErr : String → CycleErr
deriving DecidableEq, Repr

/-- Error-level log events of the embedding: `resolveError` is variants
1/2's `logger.Error("error resolving own ip", err)`; `cycleError e` is
variant 3's `u.logger.Error("update failed"/"initial update failed",
"error", err)` in `Run`, carrying the wrapped cycle error. -/
inductive LogEvent where
  | resolveError : LogEvent
  | cycleError : CycleErr → LogEvent
deriving DecidableEq, Repr

/-- Whether a log event reports a resolution failure: variants 1/2 log it
directly; variant 3's `Run` logs the error returned by `checkAndUpdate`,
which wraps `failed to resolve public IP` on the resolution path. -/
def isResolveFailureLog : LogEvent → Bool
  | .resolveError => true
  | .cycleError .resolveErr => true
  | .cycleError (.updateErr _) => false

/-- The observable outcome of one reconciliation cycle. -/
structure CycleOut where
  prevIp : String
  calls : List Call
  errLogs : List LogEvent
  sleeps : Bool
deriving DecidableEq, Repr

/-- The inner `for _, set := range records` loop of variants 1 and 2
(main.go lines 55-60 and 171-176): `prevIp` has already been set to the
new ip before the loop; each target is attempted via `updateDns`, and on
a failure `prevIp` is set to `""` ("Will retry next run"). `upd` gives
each target's remote outcome for this cycle. Returns the final `prevIp`
and the invocation list. -/
def updLoop (upd : String → Bool) (ip : String) :
    List String → String → String × List Call
  | [], prev => (prev, [])
  | set :: rest, prev =>
    let ok := upd set
    let r := updLoop upd ip rest (if ok then prev else "")
    (r.1, ⟨set, ip, ok⟩ :: r.2)

/-- The body of variants 1/2's poll loop after a successful resolution
(main.go lines 51-63 and 167-179): if the resolved ip differs from
`prevIp`, set `prevIp := ip` and run the update loop; afterwards
`time.Sleep(interval)` runs in either case. -/
def cycleBody (records : List String) (upd : String → Bool)
    (prev ip : String) : CycleOut :=
  if ip = prev then ⟨prev, [], [], true⟩
  else ⟨(updLoop upd ip records ip).1, (updLoop upd ip records ip).2, [], true⟩

/-- One iteration of variant 1's `main` loop (main.go lines 44-64).
`resolveOwnIp` returns a list of addresses; on error the loop logs and
`continue`s, which skips the `time.Sleep(interval)` at the end of the
body. On success the loop reads `ip[0]` without checking the list is
non-empty: an empty list makes the index expression panic, modelled as
`none`. -/
def cycleV1 (records : List String) (upd : String → Bool) (prev : String)
    (res : Except Unit (List String)) : Option CycleOut :=
  match res with
  | .error _ => some ⟨prev, [], [.resolveError], false⟩
  | .ok addrs =>
    match addrs.head? with
    | none => none
    | some ip => some (cycleBody records upd prev ip)

/-- One iteration of variant 2's `main` loop (main.go lines 160-180):
same structure as variant 1, but `resolveOwnIp` returns a single string
(the raw HTTP body of `https://ifconfig.me`). -/
def cycleV2 (records : List String) (upd : String → Bool) (prev : String)
    (res : Except Unit String) : CycleOut :=
  match res with
  | .error _ => ⟨prev, [], [.resolveError], false⟩
  | .ok ip => cycleBody records upd prev ip

/-- The `for _, recordSet := range u.config.AzureDNSRecords` loop of
variant 3's `checkAndUpdate` (main.go lines 413-421): on the first
failing target, `prevIP` is set to `""` and the function returns the
wrapped error, aborting the iteration; if every target succeeds,
`prevIP` is set to the resolved ip. Returns the final `prevIP`, the
invocation list, and the returned error, if any. -/
def cauLoop (upd : String → Bool) (ip : String) :
    List String → String × List Call × Option CycleErr
  | [] => (ip, [], none)
  | set :: rest =>
    if upd set then
      let r := cauLoop upd ip rest
      (r.1, ⟨set, ip, true⟩ :: r.2.1, r.2.2)
    else ("", [⟨set, ip, false⟩], some (.updateErr set))

/-- Variant 3's `checkAndUpdate` (main.go lines 398-422): resolve, then
if the ip equals `prevIP` do nothing (debug log only); otherwise run the
target loop. Returns the new `prevIP`, the updater invocations, and the
error returned to `Run`, if any. -/
def checkAndUpdate (records : List String) (upd : String → Bool)
    (prev : String) (res : Except Unit String) :
    String × List Call × Option CycleErr :=
  match res with
  | .error _ => (prev, [], some .resolveErr)
  | .ok ip =>
    if ip = prev then (prev, [], none)
    else cauLoop upd ip records

/-- One tick of variant 3's `Run` (main.go lines 376-395): calls
`checkAndUpdate`, logs the returned error (if any) exactly once, and
always waits for the next ticker tick. -/
def runStep3 (records : List String) (upd : String → Bool) (prev : String)
    (res : Except Unit String) : CycleOut :=
  let r := checkAndUpdate records upd prev res
  ⟨r.1, r.2.1,
   (match r.2.2 with
    | some e => [.cycleError e]
    | none => []), true⟩

/-- The TTL written by variants 1/2's `updateDns` (main.go lines 104 and
219): `to.Ptr(int64(interval.Seconds()))`, the poll interval truncated to
whole seconds, with no lower bound. The interval is given in
nanoseconds, as Go's `time.Duration` stores it. -/
def updateDnsTTL (intervalNs : Nat) : Nat :=
  intervalNs / 1000000000

/-- The TTL written by variant 3's `updateDNSRecord` (main.go lines
455-458): the poll interval truncated to whole seconds, raised to 60
when below 60. -/
def updateDNSRecordTTL (intervalNs : Nat) : Nat :=
  if intervalNs / 1000000000 < 60 then 60 else intervalNs / 1000000000

/-- The provider's record state, tracked per record-set name: the IP most
recently written there by a successful Record Updater call, if any. -/
def Provider : Type := String → Option String

/-- Apply one updater invocation to the provider state: a successful call
replaces the target's record value with the carried ip; a failed call
leaves it unchanged. -/
def applyCall (p : Provider) (c : Call) : Provider :=
  fun s => if c.ok = true ∧ s = c.target then some c.ip else p s

/-- Apply a cycle's updater invocations, in order, to the provider
state. -/
def applyCalls (p : Provider) (cs : List Call) : Provider :=
  cs.foldl applyCall p

/-- The reconciliation loop's state together with the provider's record
state: the cached `lastPublishedIP` (absent encoded as `""`, as in the
source) and the per-record-set published values. -/
structure AgentState where
  prevIp : String
  provider : Provider

/-- Run variant 1's loop over a list of cycle inputs, each a resolver
outcome plus the per-target update outcomes for that cycle, threading
the cached ip and the provider state; `none` if some cycle panicked. -/
def run1 (records : List String) :
    List (Except Unit (List String) × (String → Bool)) → AgentState →
    Option AgentState
  | [], st => some st
  | (res, upd) :: rest, st =>
    match cycleV1 records upd st.prevIp res with
    | none => none
    | some out => run1 records rest ⟨out.prevIp, applyCalls st.provider out.calls⟩

/-- Run variant 2's loop over a list of cycle inputs. -/
def run2 (records : List String) :
    List (Except Unit String × (String → Bool)) → AgentState → AgentState
  | [], st => st
  | (res, upd) :: rest, st =>
    let out := cycleV2 records upd st.prevIp res
    run2 records rest ⟨out.prevIp, applyCalls st.provider out.calls⟩

/-- Run variant 3's loop over a list of cycle inputs. -/
def run3 (records : List String) :
    List (Except Unit String × (String → Bool)) → AgentState → AgentState
  | [], st => st
  | (res, upd) :: rest, st =>
    let out := runStep3 records upd st.prevIp res
    run3 records rest ⟨out.prevIp, applyCalls st.provider out.calls⟩

/-- The spec's §3 invariant: whenever the cached `lastPublishedIP` is
present, every configured record set's provider-side value equals it. -/
def PublishedInv (records : List String) (st : AgentState) : Prop :=
  st.prevIp ≠ "" → ∀ s ∈ records, st.provider s = some st.prevIp

/-! ## Characterization lemmas for the update loops -/

theorem updLoop_calls (upd : String → Bool) (ip : String) :
    ∀ (records : List String) (prev : String),
      (updLoop upd ip records prev).2 = records.map (fun s => ⟨s, ip, upd s⟩) := by
  intro records
  induction records with
  | nil => intro prev; rfl
  | cons set rest ih =>
    intro prev
    simp only [updLoop, ih, List.map_cons]

theorem updLoop_fst (upd : String → Bool) (ip : String) :
    ∀ (records : List String) (prev : String),
      (updLoop upd ip records prev).1 = if records.all upd then prev else "" := by
  intro records
  induction records with
  | nil => intro prev; rfl
  | cons set rest ih =>
    intro prev
    simp only [updLoop, ih, List.all_cons]
    by_cases h : upd set = true
    · simp [h]
    · simp only [Bool.not_eq_true] at h
      simp [h]

theorem cauLoop_all (upd : String → Bool) (ip : String) (records : List String)
    (h : ∀ s ∈ records, upd s = true) :
    cauLoop upd ip records = (ip, records.map (fun s => ⟨s, ip, true⟩), none) := by
  induction records with
  | nil => rfl
  | cons set rest ih =>
    have hset : upd set = true := h set (List.mem_cons_self set rest)
    have hrest : ∀ s ∈ rest, upd s = true := fun s hs => h s (List.mem_cons_of_mem set hs)
    simp [cauLoop, hset, ih hrest]

theorem cauLoop_fst (upd : String → Bool) (ip : String) :
    ∀ records : List String,
      (cauLoop upd ip records).1 = if records.all upd then ip else "" := by
  intro records
  induction records with
  | nil => rfl
  | cons set rest ih =>
    simp only [cauLoop, List.all_cons]
    by_cases h : upd set = true
    · simp [h, ih]
    · simp only [Bool.not_eq_true] at h
      simp [h]

theorem applyCalls_all_ok (ip : String) :
    ∀ (records : List String) (p : Provider) (s : String),
      applyCalls p (records.map (fun t => ⟨t, ip, true⟩)) s =
        if s ∈ records then some ip else p s := by
  intro records
  induction records with
  | nil => intro p s; simp [applyCalls]
  | cons t rest ih =>
    intro p s
    simp only [List.map_cons, applyCalls, List.foldl_cons]
    have step : applyCalls (applyCall p ⟨t, ip, true⟩)
        (rest.map (fun r => ⟨r, ip, true⟩)) s =
        if s ∈ rest then some ip else applyCall p ⟨t, ip, true⟩ s := ih _ s
    rw [applyCalls] at step
    rw [step]
    by_cases hs : s ∈ rest
    · simp [hs]
    · by_cases hst : s = t
      · simp [hs, hst, applyCall]
      · simp [hs, hst, applyCall, List.mem_cons]

/-! ## Preservation of the published-IP invariant -/

theorem cycleBody_inv (records : List String) (upd : String → Bool)
    (prev ip : String) (p : Provider)
    (h : PublishedInv records ⟨prev, p⟩) :
    PublishedInv records
      ⟨(cycleBody records upd prev ip).prevIp,
       applyCalls p (cycleBody records upd prev ip).calls⟩ := by
  unfold PublishedInv at h ⊢
  unfold cycleBody
  by_cases hip : ip = prev
  · simpa [hip, applyCalls] using h
  · simp only [if_neg hip]
    by_cases hall : records.all upd = true
    · intro _ s hs
      have hmap : records.map (fun s => (⟨s, ip, upd s⟩ : Call)) =
          records.map (fun s => (⟨s, ip, true⟩ : Call)) := by
        apply List.map_congr_left
        intro a ha
        have : upd a = true := by
          rw [List.all_eq_true] at hall
          exact hall a ha
        rw [this]
      simp only [updLoop_calls, updLoop_fst, if_pos hall, hmap]
      rw [applyCalls_all_ok, if_pos hs]
    · intro hne
      exact absurd (by rw [updLoop_fst, if_neg hall]) hne

theorem cycleV2_inv (records : List String) (upd : String → Bool)
    (prev : String) (p : Provider) (res : Except Unit String)
    (h : PublishedInv records ⟨prev, p⟩) :
    PublishedInv records
      ⟨(cycleV2 records upd prev res).prevIp,
       applyCalls p (cycleV2 records upd prev res).calls⟩ := by
  cases res with
  | error e => simpa [cycleV2, applyCalls] using h
  | ok ip => exact cycleBody_inv records upd prev ip p h

theorem cycleV1_inv (records : List String) (upd : String → Bool)
    (prev : String) (p : Provider) (res : Except Unit (List String))
    (out : CycleOut) (hout : cycleV1 records upd prev res = some out)
    (h : PublishedInv records ⟨prev, p⟩) :
    PublishedInv records ⟨out.prevIp, applyCalls p out.calls⟩ := by
  cases res with
  | error e =>
    simp only [cycleV1, Option.some.injEq] at hout
    subst hout
    simpa [applyCalls] using h
  | ok addrs =>
    cases haddrs : addrs.head? with
    | none => simp [cycleV1, haddrs] at hout
    | some ip =>
      simp only [cycleV1, haddrs, Option.some.injEq] at hout
      subst hout
      exact cycleBody_inv records upd prev ip p h

theorem runStep3_inv (records : List String) (upd : String → Bool)
    (prev : String) (p : Provider) (res : Except Unit String)
    (h : PublishedInv records ⟨prev, p⟩) :
    PublishedInv records
      ⟨(runStep3 records upd prev res).prevIp,
       applyCalls p (runStep3 records upd prev res).calls⟩ := by
  unfold PublishedInv at h ⊢
  cases res with
  | error e => simpa [runStep3, checkAndUpdate, applyCalls] using h
  | ok ip =>
    by_cases hip : ip = prev
    · simpa [runStep3, checkAndUpdate, hip, applyCalls] using h
    · by_cases hall : ∀ s ∈ records, upd s = true
      · intro _ s hs
        simp only [runStep3, checkAndUpdate, if_neg hip, cauLoop_all upd ip records hall]
        rw [applyCalls_all_ok, if_pos hs]
      · intro hne
        exfalso
        apply hne
        have hallb : records.all upd ≠ true :=
          fun hb => hall (List.all_eq_true.mp hb)
        show (checkAndUpdate records upd prev (Except.ok ip)).1 = ""
        simp only [checkAndUpdate]
        rw [if_neg hip, cauLoop_fst, if_neg hallb]

theorem run1_inv (records : List String) :
    ∀ (ins : List (Except Unit (List String) × (String → Bool)))
      (st fin : AgentState), run1 records ins st = some fin →
      PublishedInv records st → PublishedInv records fin := by
  intro ins
  induction ins with
  | nil =>
    intro st fin hrun h
    simp only [run1, Option.some.injEq] at hrun
    subst hrun
    exact h
  | cons input rest ih =>
    intro st fin hrun h
    obtain ⟨res, upd⟩ := input
    simp only [run1] at hrun
    cases hout : cycleV1 records upd st.prevIp res with
    | none => rw [hout] at hrun; exact absurd hrun (by simp)
    | some out =>
      rw [hout] at hrun
      exact ih _ fin hrun (cycleV1_inv records upd st.prevIp st.provider res out hout h)

theorem run2_inv (records : List String) :
    ∀ (ins : List (Except Unit String × (String → Bool))) (st : AgentState),
      PublishedInv records st → PublishedInv records (run2 records ins st) := by
  intro ins
  induction ins with
  | nil => intro st h; exact h
  | cons input rest ih =>
    intro st h
    obtain ⟨res, upd⟩ := input
    exact ih _ (cycleV2_inv records upd st.prevIp st.provider res h)

theorem run3_inv (records : List String) :
    ∀ (ins : List (Except Unit String × (String → Bool))) (st : AgentState),
      PublishedInv records st → PublishedInv records (run3 records ins st) := by
  intro ins
  induction ins with
  | nil => intro st h; exact h
  | cons input rest ih =>
    intro st h
    obtain ⟨res, upd⟩ := input
    exact ih _ (runStep3_inv records upd st.prevIp st.provider res h)

/-! ## Claim theorems -/

/-- Claim C1: in every reachable state of the reconciliation loop (all three
program variants, run from the initial state with `lastPublishedIP` absent),
whenever `lastPublishedIP` is present it equals the value most recently
written successfully to every configured record set; in particular no
operation of the loop ever leaves it set to a value for which some target's
update failed, since any failure clears it to absent. -/
theorem lastPublishedIP_invariant (records : List String) (p0 : Provider)
    (ins1 : List (Except Unit (List String) × (String → Bool)))
    (ins2 ins3 : List (Except Unit String × (String → Bool))) :
    PublishedInv records (run2 records ins2 ⟨"", p0⟩) ∧
    PublishedInv records (run3 records ins3 ⟨"", p0⟩) ∧
    (∀ st, run1 records ins1 ⟨"", p0⟩ = some st → PublishedInv records st) := by
  have hinit : PublishedInv records ⟨"", p0⟩ := fun hne => absurd rfl hne
  exact ⟨run2_inv records ins2 _ hinit, run3_inv records ins3 _ hinit,
    fun st hst => run1_inv records ins1 _ st hst hinit⟩

/-- Witness for C1: one concrete all-success cycle, after which the cached ip
is present and the provider's record for the configured target equals it. -/
theorem lastPublishedIP_invariant_witness :
    (run2 ["a"] [(Except.ok "1.1.1.1", fun _ => true)] ⟨"", fun _ => none⟩).provider "a" =
      some ((run2 ["a"] [(Except.ok "1.1.1.1", fun _ => true)] ⟨"", fun _ => none⟩).prevIp) := by
  have h := (lastPublishedIP_invariant ["a"] (fun _ => none) []
    [(Except.ok "1.1.1.1", fun _ => true)] []).1
  unfold PublishedInv at h
  exact h (by decide) "a" (by simp)

/-- Counterexample to claim C2 as stated: with `lastPublishedIP = "1.1.1.1"`,
a resolved ip `"2.2.2.2"` and one configured target whose update fails, the
cached value after the cycle is `""` (cleared), not its pre-cycle value
`"1.1.1.1"`: the code clears the cache on a failed cycle instead of keeping
the pre-cycle value. -/
theorem failed_cycle_clears_prev_counterexample :
    (checkAndUpdate ["a"] (fun _ => false) "1.1.1.1" (Except.ok "2.2.2.2")).1 = "" ∧
    (cycleV2 ["a"] (fun _ => false) "1.1.1.1" (Except.ok "2.2.2.2")).prevIp = "" ∧
    "" ≠ "1.1.1.1" := by decide

/-- Claim C2 (amended): if the resolver returns a new address and at least
one target's update fails, `lastPublishedIP` after the cycle is cleared to
absent (`""`) — hence not equal to the non-blank new address, though not
necessarily equal to its pre-cycle value — and a following cycle resolving
any non-blank address re-attempts every configured target in configuration
order (variants 1/2; variant 3's `checkAndUpdate` clears the cache the same
way). -/
theorem failed_cycle_retries_all (records : List String)
    (upd upd2 : String → Bool) (prev ip ip2 : String) (hip : ip ≠ prev)
    (s0 : String) (hs0 : s0 ∈ records) (hfail : upd s0 = false)
    (hip2 : ip2 ≠ "") :
    (cycleBody records upd prev ip).prevIp = "" ∧
    (ip ≠ "" → (cycleBody records upd prev ip).prevIp ≠ ip) ∧
    (cycleBody records upd2 (cycleBody records upd prev ip).prevIp ip2).calls.map
      Call.target = records ∧
    (checkAndUpdate records upd prev (Except.ok ip)).1 = "" := by
  have hall : records.all upd ≠ true := by
    intro hb
    rw [List.all_eq_true] at hb
    rw [hb s0 hs0] at hfail
    exact Bool.noConfusion hfail
  have hclear : (cycleBody records upd prev ip).prevIp = "" := by
    show (if ip = prev then (⟨prev, [], [], true⟩ : CycleOut)
      else ⟨(updLoop upd ip records ip).1, (updLoop upd ip records ip).2, [], true⟩).prevIp = ""
    rw [if_neg hip, updLoop_fst, if_neg hall]
  refine ⟨hclear, fun hipne => ?_, ?_, ?_⟩
  · rw [hclear]
    exact fun he => hipne he.symm
  · rw [hclear]
    have hip2p : ¬ ip2 = "" := hip2
    show (if ip2 = "" then (⟨"", [], [], true⟩ : CycleOut)
      else ⟨(updLoop upd2 ip2 records ip2).1, (updLoop upd2 ip2 records ip2).2,
        [], true⟩).calls.map Call.target = records
    rw [if_neg hip2p, updLoop_calls, List.map_map]
    have hid : List.map (Call.target ∘ fun s => (⟨s, ip2, upd2 s⟩ : Call)) records =
        List.map id records := List.map_congr_left (fun a _ => rfl)
    rw [hid, List.map_id]
  · show (if ip = prev then (prev, ([] : List Call), (none : Option CycleErr))
      else cauLoop upd ip records).1 = ""
    rw [if_neg hip, cauLoop_fst, if_neg hall]

/-- Witness for C2 (amended): two targets, the second one failing. -/
theorem failed_cycle_retries_all_witness :
    (cycleBody ["a", "b"] (fun s => s == "a") "1.1.1.1" "2.2.2.2").prevIp = "" ∧
    (cycleBody ["a", "b"] (fun _ => true) "" "2.2.2.2").calls.map Call.target =
      ["a", "b"] := by
  have h := failed_cycle_retries_all ["a", "b"] (fun s => s == "a")
    (fun _ => true) "1.1.1.1" "2.2.2.2" "2.2.2.2" (by decide) "b" (by simp)
    (by decide) (by decide)
  exact ⟨h.1, by rw [h.1] at h; exact h.2.2.1⟩

/-- Claim C3: if the resolver returns an address different from
`lastPublishedIP` and every configured target's update succeeds, the cached
ip equals the new address at the end of the cycle and the Record Updater
was invoked exactly once per configured target, in configuration order,
each invocation carrying that address (variants 1/2's loop body and variant
3's `checkAndUpdate`). -/
theorem all_success_publishes (records : List String) (upd : String → Bool)
    (prev ip : String) (hip : ip ≠ prev) (hall : ∀ s ∈ records, upd s = true) :
    (cycleBody records upd prev ip).prevIp = ip ∧
    (cycleBody records upd prev ip).calls =
      records.map (fun s => ⟨s, ip, true⟩) ∧
    checkAndUpdate records upd prev (Except.ok ip) =
      (ip, records.map (fun s => ⟨s, ip, true⟩), none) := by
  have hallb : records.all upd = true := List.all_eq_true.mpr hall
  have hmap : records.map (fun s => (⟨s, ip, upd s⟩ : Call)) =
      records.map (fun s => (⟨s, ip, true⟩ : Call)) :=
    List.map_congr_left (fun a ha => by rw [hall a ha])
  refine ⟨?_, ?_, ?_⟩
  · show (if ip = prev then (⟨prev, [], [], true⟩ : CycleOut)
      else ⟨(updLoop upd ip records ip).1, (updLoop upd ip records ip).2,
        [], true⟩).prevIp = ip
    rw [if_neg hip, updLoop_fst, if_pos hallb]
  · show (if ip = prev then (⟨prev, [], [], true⟩ : CycleOut)
      else ⟨(updLoop upd ip records ip).1, (updLoop upd ip records ip).2,
        [], true⟩).calls = records.map (fun s => ⟨s, ip, true⟩)
    rw [if_neg hip, updLoop_calls, hmap]
  · show (if ip = prev then (prev, ([] : List Call), (none : Option CycleErr))
      else cauLoop upd ip records) = (ip, records.map (fun s => ⟨s, ip, true⟩), none)
    rw [if_neg hip, cauLoop_all upd ip records hall]

/-- Witness for C3: one target, successful update of a fresh address. -/
theorem all_success_publishes_witness :
    (cycleBody ["a"] (fun _ => true) "" "1.1.1.1").prevIp = "1.1.1.1" ∧
    checkAndUpdate ["a"] (fun _ => true) "" (Except.ok "1.1.1.1") =
      ("1.1.1.1", [⟨"a", "1.1.1.1", true⟩], none) := by
  have h := all_success_publishes ["a"] (fun _ => true) "" "1.1.1.1"
    (by decide) (by simp)
  exact ⟨h.1, h.2.2⟩

/-- Claim C4: a cycle whose resolution fails leaves `lastPublishedIP`
unchanged, makes no updater calls, and emits exactly one resolution-failure
log event, in all three program variants (variants 1/2 log
`error resolving own ip` directly; variant 3's `Run` logs the wrapped
error returned by `checkAndUpdate` once). -/
theorem resolution_failure_preserves_prev (records : List String)
    (upd : String → Bool) (prev : String) :
    cycleV1 records upd prev (Except.error ()) =
      some ⟨prev, [], [LogEvent.resolveError], false⟩ ∧
    cycleV2 records upd prev (Except.error ()) =
      ⟨prev, [], [LogEvent.resolveError], false⟩ ∧
    runStep3 records upd prev (Except.error ()) =
      ⟨prev, [], [LogEvent.cycleError CycleErr.resolveErr], true⟩ ∧
    (cycleV2 records upd prev (Except.error ())).errLogs.countP
      isResolveFailureLog = 1 ∧
    (runStep3 records upd prev (Except.error ())).errLogs.countP
      isResolveFailureLog = 1 := by
  exact ⟨rfl, rfl, rfl, rfl, rfl⟩

/-- Counterexample to claim C5 as stated: the resolver returns `"1.1.1.1"`
on two consecutive cycles, the single target's update fails in the first
cycle (clearing the cache), and the second cycle therefore invokes the
updater again although the resolver's answer did not change. -/
theorem same_address_reupdate_counterexample :
    (cycleV2 ["a"] (fun _ => false)
      ((cycleV2 ["a"] (fun _ => false) "" (Except.ok "1.1.1.1")).prevIp)
      (Except.ok "1.1.1.1")).calls = [⟨"a", "1.1.1.1", false⟩] ∧
    (cycleV2 ["a"] (fun _ => false)
      ((cycleV2 ["a"] (fun _ => false) "" (Except.ok "1.1.1.1")).prevIp)
      (Except.ok "1.1.1.1")).calls ≠ [] := by decide

/-- Claim C5 (amended): if the resolver returns the same address on two
consecutive cycles and the first cycle either made no update (the address
was already cached) or succeeded on every configured target, the updater
is not invoked on the second cycle — equivalently, whenever the resolved
address equals the cached `lastPublishedIP` the cycle makes no remote
calls. Unqualified, the claim fails when the first cycle's updates failed:
the cache is cleared and the second cycle re-updates. -/
theorem same_address_no_second_update (records : List String)
    (upd1 upd2 : String → Bool) (prev ip : String)
    (h : ip = prev ∨ ∀ s ∈ records, upd1 s = true) :
    (cycleV2 records upd2
      ((cycleV2 records upd1 prev (Except.ok ip)).prevIp)
      (Except.ok ip)).calls = [] ∧
    (checkAndUpdate records upd2
      ((checkAndUpdate records upd1 prev (Except.ok ip)).1)
      (Except.ok ip)).2.1 = [] := by
  have hprev2 : (cycleV2 records upd1 prev (Except.ok ip)).prevIp = ip := by
    show (if ip = prev then (⟨prev, [], [], true⟩ : CycleOut)
      else ⟨(updLoop upd1 ip records ip).1, (updLoop upd1 ip records ip).2,
        [], true⟩).prevIp = ip
    by_cases hip : ip = prev
    · rw [if_pos hip, hip]
    · rcases h with h | hall
      · exact absurd h hip
      · rw [if_neg hip, updLoop_fst, if_pos (List.all_eq_true.mpr hall)]
  have hprev3 : (checkAndUpdate records upd1 prev (Except.ok ip)).1 = ip := by
    show (if ip = prev then (prev, ([] : List Call), (none : Option CycleErr))
      else cauLoop upd1 ip records).1 = ip
    by_cases hip : ip = prev
    · rw [if_pos hip, hip]
    · rcases h with h | hall
      · exact absurd h hip
      · rw [if_neg hip, cauLoop_all upd1 ip records hall]
  constructor
  · rw [hprev2]
    show (if ip = ip then (⟨ip, [], [], true⟩ : CycleOut)
      else ⟨(updLoop upd2 ip records ip).1, (updLoop upd2 ip records ip).2,
        [], true⟩).calls = []
    rw [if_pos rfl]
  · rw [hprev3]
    show (if ip = ip then (ip, ([] : List Call), (none : Option CycleErr))
      else cauLoop upd2 ip records).2.1 = []
    rw [if_pos rfl]

/-- Witness for C5 (amended): all updates of the first cycle succeed, so the
second same-address cycle makes no calls. -/
theorem same_address_no_second_update_witness :
    (cycleV2 ["a"] (fun _ => true)
      ((cycleV2 ["a"] (fun _ => true) "" (Except.ok "1.1.1.1")).prevIp)
      (Except.ok "1.1.1.1")).calls = [] :=
  (same_address_no_second_update ["a"] (fun _ => true) (fun _ => true)
    "" "1.1.1.1" (Or.inr (by simp))).1

/-- Claim C6 fails on the code: a blank resolver answer is not rejected as
a resolution error. With `lastPublishedIP = "1.2.3.4"` and a resolver
answer of `""`, variant 3's `checkAndUpdate` (and variants 1/2's loop)
treats `""` as a changed candidate value, compares it against the cache,
and passes it to the Record Updater. -/
theorem blank_address_not_rejected :
    checkAndUpdate ["a"] (fun _ => true) "1.2.3.4" (Except.ok "") =
      ("", [⟨"a", "", true⟩], none) ∧
    (cycleV2 ["a"] (fun _ => true) "1.2.3.4" (Except.ok "")).calls =
      [⟨"a", "", true⟩] ∧
    (cycleV1 ["a"] (fun _ => true) "1.2.3.4" (Except.ok [""])).map
      CycleOut.calls = some [⟨"a", "", true⟩] := by decide

/-- Claim C6 (amended): a blank resolver answer is not rejected as a
resolution error: it is compared against the cached `lastPublishedIP` like
any other value, and when the cache is non-blank the blank string is
treated as a change and carried by every Record Updater invocation of the
cycle (shown here for variants 1/2's loop body and, with all targets
succeeding, for variant 3's `checkAndUpdate`). -/
theorem blank_address_passed_through (records : List String)
    (upd : String → Bool) (prev : String) (hprev : prev ≠ "")
    (hall : ∀ s ∈ records, upd s = true) :
    (cycleBody records upd prev "").calls =
      records.map (fun s => ⟨s, "", upd s⟩) ∧
    checkAndUpdate records upd prev (Except.ok "") =
      ("", records.map (fun s => ⟨s, "", true⟩), none) := by
  have hip : ("" : String) ≠ prev := fun h => hprev h.symm
  constructor
  · show (if "" = prev then (⟨prev, [], [], true⟩ : CycleOut)
      else ⟨(updLoop upd "" records "").1, (updLoop upd "" records "").2,
        [], true⟩).calls = records.map (fun s => ⟨s, "", upd s⟩)
    rw [if_neg hip, updLoop_calls]
  · show (if "" = prev then (prev, ([] : List Call), (none : Option CycleErr))
      else cauLoop upd "" records) =
      ("", records.map (fun s => ⟨s, "", true⟩), none)
    rw [if_neg hip, cauLoop_all upd "" records hall]

/-- Witness for C6 (amended): one target, cache `"1.2.3.4"`, blank answer. -/
theorem blank_address_passed_through_witness :
    checkAndUpdate ["a"] (fun _ => true) "1.2.3.4" (Except.ok "") =
      ("", [⟨"a", "", true⟩], none) :=
  (blank_address_passed_through ["a"] (fun _ => true) "1.2.3.4"
    (by decide) (by simp)).2

/-- Claim C7 fails on variants 1/2: a resolution failure executes
`continue`, which skips the `time.Sleep(interval)` at the end of the loop
body, so the next cycle starts immediately instead of waiting the poll
interval; successful-resolution cycles do sleep, and variant 3's
ticker-driven `Run` always waits. -/
theorem resolution_failure_skips_sleep :
    (cycleV2 ["a"] (fun _ => true) "1.1.1.1" (Except.error ())).sleeps = false ∧
    cycleV1 ["a"] (fun _ => true) "1.1.1.1" (Except.error ()) =
      some ⟨"1.1.1.1", [], [LogEvent.resolveError], false⟩ ∧
    (cycleV2 ["a"] (fun _ => true) "1.1.1.1" (Except.ok "1.1.1.1")).sleeps = true ∧
    (runStep3 ["a"] (fun _ => true) "1.1.1.1" (Except.error ())).sleeps = true := by
  decide

/-- Counterexample to claim C8 as stated: with a 30-second poll interval,
variants 1/2's `updateDns` writes TTL 30, below the claimed 60-second
floor; the floor exists only in variant 3's `updateDNSRecord`, where the
TTL then no longer equals the interval in whole seconds. -/
theorem ttl_no_floor_counterexample :
    updateDnsTTL 30000000000 = 30 ∧ updateDnsTTL 30000000000 < 60 ∧
    updateDNSRecordTTL 30000000000 = 60 := by decide

/-- Claim C8 (amended): variant 3's `updateDNSRecord` writes a TTL equal to
the poll interval in whole seconds raised to a floor of 60 seconds, while
variants 1/2's `updateDns` write the interval in whole seconds with no
floor. The interval is in nanoseconds, as Go's `time.Duration` stores it. -/
theorem ttl_tracks_interval (intervalNs : Nat) :
    60 ≤ updateDNSRecordTTL intervalNs ∧
    updateDNSRecordTTL intervalNs = max 60 (updateDnsTTL intervalNs) ∧
    updateDnsTTL intervalNs = intervalNs / 1000000000 := by
  unfold updateDNSRecordTTL updateDnsTTL
  refine ⟨?_, ?_, rfl⟩ <;> split <;> omega

/-- Claim C9 fails on variant 1: when `resolveOwnIp` returns a nil error
together with an empty address list, the loop's `ip[0]` index expression
faults (index out of range), so the cycle is not total and the fault
escapes the reconciliation-cycle boundary, crashing the whole loop. -/
theorem empty_resolver_list_faults :
    cycleV1 ["a"] (fun _ => true) "" (Except.ok []) = none ∧
    run1 ["a"] [(Except.ok [], fun _ => true)] ⟨"", fun _ => none⟩ = none :=
  ⟨rfl, rfl⟩

/-- Claim C10: in variants 1 and 2's updating phase, a failed target update
does not abort the iteration: whenever the updating phase is entered,
every configured target receives exactly one updater call, in
configuration order, regardless of the per-target outcomes — in
particular even when an earlier target's update failed. -/
theorem update_loop_visits_all (records : List String) (upd : String → Bool)
    (prev ip : String) (rest : List String) (hip : ip ≠ prev) :
    (cycleBody records upd prev ip).calls.map Call.target = records ∧
    (cycleV2 records upd prev (Except.ok ip)).calls.map Call.target = records ∧
    (cycleV1 records upd prev (Except.ok (ip :: rest))).map
      (fun out => out.calls.map Call.target) = some records := by
  have hbody : (cycleBody records upd prev ip).calls.map Call.target = records := by
    show (if ip = prev then (⟨prev, [], [], true⟩ : CycleOut)
      else ⟨(updLoop upd ip records ip).1, (updLoop upd ip records ip).2,
        [], true⟩).calls.map Call.target = records
    rw [if_neg hip, updLoop_calls, List.map_map]
    have hid : List.map (Call.target ∘ fun s => (⟨s, ip, upd s⟩ : Call)) records =
        List.map id records := List.map_congr_left (fun a _ => rfl)
    rw [hid, List.map_id]
  exact ⟨hbody, hbody, by
    rw [show cycleV1 records upd prev (Except.ok (ip :: rest)) =
      some (cycleBody records upd prev ip) from rfl]
    show some ((cycleBody records upd prev ip).calls.map Call.target) = some records
    rw [hbody]⟩

/-- Witness for C10: the first of two targets fails, yet both targets are
invoked in that cycle, in configuration order. -/
theorem update_loop_visits_all_witness :
    (cycleBody ["a", "b"] (fun s => s == "b") "" "2.2.2.2").calls.map
      Call.target = ["a", "b"] :=
  (update_loop_visits_all ["a", "b"] (fun s => s == "b") "" "2.2.2.2" []
    (by decide)).1

end AzureDnsUpdater
